import Mathlib

/-!
Shallow embedding of `crates/turborepo-ui/src/logs.rs`: the `LogWriter`
log-multiplexing writer and the `replay_logs` reader.

Modelling choices:
* Byte buffers and file contents are `List Char` (byte-transparent text).
* The two underlying sinks (the `BufWriter<File>` file sink and the generic
  `W : Write` prefixed-terminal sink) are abstract state machines: a `Sink σ`
  supplies a `write` and a `flush` operation, each returning the updated sink
  state together with an `Except` result, mirroring Rust's `io::Result`.
  In-place mutation of the Rust code becomes explicit state passing.
* Fallible filesystem operations (`ensure_dir`, `create`, `File::open`,
  line reads) are passed in as `Except` values, so every error path of the
  source is representable.
* Side effects on the prefixed-output collaborator during replay are recorded
  as the list of lines passed to its `output` method, in call order.
-/

namespace TurboLogs

/-- An abstract `std::io::Error` cause; only its identity matters here. -/
structure IoError where
  code : Nat
deriving DecidableEq, Repr

/-- A byte buffer (the `&[u8]` / file-content type), as byte-transparent text. -/
abbrev Buf := List Char

/-- The error enum of `turborepo-ui` as used by `logs.rs`:
`Error::CannotWriteLogs` and `Error::CannotReadLogs`, each carrying the
originating I/O cause. -/
inductive Error where
  | CannotWriteLogs (cause : IoError)
  | CannotReadLogs (cause : IoError)
deriving DecidableEq, Repr

/-- An abstract byte sink over sink-state `σ`: the capability set
`{write(bytes) -> byte-count or failure, flush() -> success or failure}`
of Rust's `Write` trait, with mutation made explicit. -/
structure Sink (σ : Type) where
  write : σ → Buf → σ × Except IoError Nat
  flush : σ → σ × Except IoError Unit

/-- `LogWriter<W>` from `logs.rs`: an optional buffered file sink and an
optional prefixed writer (terminal sink), each represented by its state. -/
structure LogWriter (σf σt : Type) where
  log_file : Option σf
  prefixed_writer : Option σt
deriving DecidableEq, Repr

/-- `LogWriter::default()`: both sinks absent. -/
def LogWriter.default (σf σt : Type) : LogWriter σf σt :=
  ⟨none, none⟩

/-- `LogWriter::with_log_file`: `ensure_dir` then `create`, mapping either
failure to `Error::CannotWriteLogs`; on success the created file (already
wrapped in its buffered-writer state by `create`) is stored as the file sink.
The two filesystem operations are passed in as their results. -/
def LogWriter.with_log_file {σf σt : Type} (ensure_dir : Except IoError Unit)
    (create : Except IoError σf) (w : LogWriter σf σt) :
    LogWriter σf σt × Except Error Unit :=
  match ensure_dir with
  | Except.error err => (w, Except.error (Error.CannotWriteLogs err))
  | Except.ok _ =>
    match create with
    | Except.error err => (w, Except.error (Error.CannotWriteLogs err))
    | Except.ok f => (⟨some f, w.prefixed_writer⟩, Except.ok ())

/-- `LogWriter::with_prefixed_writer`: stores the given sink state
unconditionally. -/
def LogWriter.with_prefixed_writer {σf σt : Type} (pw : σt)
    (w : LogWriter σf σt) : LogWriter σf σt :=
  ⟨w.log_file, some pw⟩

/-- `<LogWriter as Write>::write`: the four-way dispatch of `logs.rs` lines
52-66.  With both sinks, the prefixed writer is written first and its failure
short-circuits (the `?` on line 55) before the file sink is touched; on its
success the file sink's result is returned and the prefixed writer's count is
discarded.  With one sink, that sink's result is returned.  With none, `Ok(0)`. -/
def LogWriter.write {σf σt : Type} (fs : Sink σf) (ts : Sink σt)
    (w : LogWriter σf σt) (buf : Buf) : LogWriter σf σt × Except IoError Nat :=
  match w.log_file, w.prefixed_writer with
  | some lf, some pw =>
    match ts.write pw buf with
    | (pw', Except.error e) => (⟨some lf, some pw'⟩, Except.error e)
    | (pw', Except.ok _) =>
      match fs.write lf buf with
      | (lf', r) => (⟨some lf', some pw'⟩, r)
  | some lf, none =>
    match fs.write lf buf with
    | (lf', r) => (⟨some lf', none⟩, r)
  | none, some pw =>
    match ts.write pw buf with
    | (pw', r) => (⟨none, some pw'⟩, r)
  | none, none => (w, Except.ok 0)

/-- `<LogWriter as Write>::flush`: flush the file sink if present (its failure
short-circuits before the prefixed writer is reached), then flush the prefixed
writer if present, then `Ok(())`. -/
def LogWriter.flush {σf σt : Type} (fs : Sink σf) (ts : Sink σt)
    (w : LogWriter σf σt) : LogWriter σf σt × Except IoError Unit :=
  match w.log_file, w.prefixed_writer with
  | some lf, some pw =>
    match fs.flush lf with
    | (lf', Except.error e) => (⟨some lf', some pw⟩, Except.error e)
    | (lf', Except.ok _) =>
      match ts.flush pw with
      | (pw', r) => (⟨some lf', some pw'⟩, r)
  | some lf, none =>
    match fs.flush lf with
    | (lf', r) => (⟨some lf', none⟩, r)
  | none, some pw =>
    match ts.flush pw with
    | (pw', r) => (⟨none, some pw'⟩, r)
  | none, none => (w, Except.ok ())

/-- A sequence of `write` calls, short-circuiting on the first failure
(each call site uses `?` / `writeln!`). -/
def writeAll {σf σt : Type} (fs : Sink σf) (ts : Sink σt) :
    LogWriter σf σt → List Buf → LogWriter σf σt × Except IoError Unit
  | w, [] => (w, Except.ok ())
  | w, b :: rest =>
    match LogWriter.write fs ts w b with
    | (w', Except.error e) => (w', Except.error e)
    | (w', Except.ok _) => writeAll fs ts w' rest

/-- Strip one trailing carriage return from a line accumulated in reverse,
returning the line in order: the `if buf.ends_with a carriage return then pop`
step of Rust's `Lines::next`, applied after a newline was consumed. -/
def stripCrRev (acc : List Char) : List Char :=
  match acc with
  | '\r' :: rest => rest.reverse
  | _ => acc.reverse

/-- Accumulator form of Rust's `BufRead::lines` over in-memory content:
`acc` holds the current line's characters in reverse.  On a newline the line
is emitted with the newline dropped and one preceding carriage return dropped;
at end of input a nonempty final line is emitted verbatim (no terminator was
read, so nothing is stripped), and an empty `acc` means `read_line` returned
zero bytes, ending the iterator. -/
def rustLinesAux : List Char → List Char → List (List Char)
  | acc, [] => if acc.isEmpty then [] else [acc.reverse]
  | acc, c :: rest =>
    if c = '\n' then stripCrRev acc :: rustLinesAux [] rest
    else rustLinesAux (c :: acc) rest

/-- Rust's `BufRead::lines` semantics on fully available content: split on
newline, strip the newline and a carriage return directly before it from each
line, keep a final unterminated line verbatim. -/
def rustLines (content : Buf) : List Buf :=
  rustLinesAux [] content

/-- The `for line in log_reader.lines()` loop of `replay_logs`: each `Ok` line
is passed to `output.output(line)` (recorded in the emitted list, in call
order); the first `Err` is mapped to `Error::CannotReadLogs` and stops the
loop with no further `output` calls. -/
def replayLoop : List (Except IoError Buf) → List Buf × Except Error Unit
  | [] => ([], Except.ok ())
  | Except.error e :: _ => ([], Except.error (Error.CannotReadLogs e))
  | Except.ok l :: rest =>
    match replayLoop rest with
    | (out, r) => (l :: out, r)

/-- `replay_logs`: `File::open` failure is mapped to `Error::CannotReadLogs`
before any `output` call; otherwise the line-read results of
`BufReader::lines` are consumed by the loop.  The first component is the list
of lines passed to the prefixed sink's `output`, in call order. -/
def replay_logs (openResult : Except IoError (List (Except IoError Buf))) :
    List Buf × Except Error Unit :=
  match openResult with
  | Except.error e => ([], Except.error (Error.CannotReadLogs e))
  | Except.ok lineResults => replayLoop lineResults

/-- The line-read results produced by `BufReader::lines` over a readable file
whose whole content decodes successfully: every line is `Ok`. -/
def linesOf (content : Buf) : List (Except IoError Buf) :=
  (rustLines content).map Except.ok

/-- The state of a `BufWriter<File>`: bytes sitting in the in-memory buffer
and bytes already written through to the file (capacity-triggered spills are
abstracted into an unbounded buffer; `flush` commits everything). -/
structure BufFile where
  buffered : Buf
  written : Buf
deriving DecidableEq, Repr

/-- The file sink: `BufWriter::write` accepts the whole buffer, reporting its
length; `BufWriter::flush` commits the buffer to the file and empties it. -/
def fileSink : Sink BufFile where
  write := fun s buf => (⟨s.buffered ++ buf, s.written⟩, Except.ok buf.length)
  flush := fun s => (⟨[], s.written ++ s.buffered⟩, Except.ok ())

/-- An in-memory terminal destination: the bytes it has received. -/
structure TermBuf where
  out : Buf
deriving DecidableEq, Repr

/-- Modelled from the spec: the terminal sink (a `PrefixedWriter` over an
in-memory byte destination, whose source is outside `src/`) accepts every
write, reporting the full byte count, and its flush forwards to the in-memory
destination, where it is a no-op that always succeeds. -/
def termSink : Sink TermBuf where
  write := fun s buf => (⟨s.out ++ buf⟩, Except.ok buf.length)
  flush := fun s => (s, Except.ok ())

/-- Modelled from the spec: `PrefixedUI.output` (source outside `src/`)
renders each emitted line by prepending the prefix glyph and appending a
newline to its own destination. -/
def prefixedRender (pfx : Buf) (lines : List Buf) : List Buf :=
  lines.map (fun l => pfx ++ l ++ ['\n'])

/-- A terminal sink whose writes always fail (for exercising the error path). -/
def failTermSink : Sink TermBuf where
  write := fun s _ => (s, Except.error ⟨7⟩)
  flush := fun s => (s, Except.error ⟨7⟩)

/-- A file sink whose operations always fail (for exercising the error path). -/
def failFileSink : Sink BufFile where
  write := fun s _ => (s, Except.error ⟨3⟩)
  flush := fun s => (s, Except.error ⟨3⟩)

/-- The file content obtained by terminating each line with a newline and
concatenating, i.e. the write pattern of the round-trip scenario. -/
def terminatedContent (L : List Buf) : Buf :=
  (L.map (fun l => l ++ ['\n'])).flatten

/-! Helper lemmas shared by the claim theorems. -/

theorem replayLoop_map_ok (xs : List Buf) :
    replayLoop (xs.map Except.ok) = (xs, Except.ok ()) := by
  induction xs with
  | nil => rfl
  | cons l rest ih => simp [replayLoop, ih]

theorem replayLoop_ok_append (pre : List Buf) (ys : List (Except IoError Buf)) :
    replayLoop (pre.map Except.ok ++ ys) =
      (pre ++ (replayLoop ys).1, (replayLoop ys).2) := by
  induction pre with
  | nil => simp
  | cons l pre ih => simp [replayLoop, ih]

theorem rustLinesAux_line (l : Buf) (h : '\n' ∉ l) (acc rest : List Char) :
    rustLinesAux acc (l ++ '\n' :: rest) =
      stripCrRev (l.reverse ++ acc) :: rustLinesAux [] rest := by
  induction l generalizing acc with
  | nil => simp [rustLinesAux]
  | cons c l ih =>
    have hc : c ≠ '\n' := fun hc => h (hc ▸ List.mem_cons_self c l)
    have hl : '\n' ∉ l := fun hl => h (List.mem_cons_of_mem c hl)
    simp [rustLinesAux, hc, ih hl, List.append_assoc]

theorem stripCrRev_not_cr (acc : Buf) (h : acc.head? ≠ some '\r') :
    stripCrRev acc = acc.reverse := by
  unfold stripCrRev
  split
  · simp_all
  · rfl

/-- Claim C3: writing through a `LogWriter` with neither a file sink nor a
terminal sink configured performs no write, returns byte count 0 and does not
fail; a freshly constructed default `LogWriter` has neither sink configured. -/
theorem write_no_sinks {σf σt : Type} (fs : Sink σf) (ts : Sink σt)
    (w : LogWriter σf σt) (buf : Buf)
    (hf : w.log_file = none) (ht : w.prefixed_writer = none) :
    LogWriter.write fs ts w buf = (w, Except.ok 0) ∧
    (LogWriter.default σf σt).log_file = none ∧
    (LogWriter.default σf σt).prefixed_writer = none := by
  refine ⟨?_, rfl, rfl⟩
  simp [LogWriter.write, hf, ht]

/-- Witness for C3 at a concrete default writer and buffer. -/
theorem write_no_sinks_witness :
    LogWriter.write fileSink termSink (LogWriter.default BufFile TermBuf) ['a'] =
      (LogWriter.default BufFile TermBuf, Except.ok 0) :=
  (write_no_sinks fileSink termSink (LogWriter.default BufFile TermBuf) ['a']
    rfl rfl).1

/-- Claim C5: when the log file cannot be opened, `replay_logs` fails with
`CannotReadLogs` carrying the originating I/O cause, and the prefixed sink's
`output` is never called (the emitted-line list is empty). -/
theorem replay_open_failure (e : IoError) :
    replay_logs (Except.error e) =
      ([], Except.error (Error.CannotReadLogs e)) :=
  rfl

/-- Claim C6: if a line read fails mid-stream, `replay_logs` fails immediately
with `CannotReadLogs` carrying the cause and returns no partial-success value:
exactly the lines before the failure point have been emitted to the sink, and
no line at or after the failure point is emitted. -/
theorem replay_midstream_failure (pre : List Buf) (e : IoError)
    (rest : List (Except IoError Buf)) :
    replay_logs (Except.ok (pre.map Except.ok ++ Except.error e :: rest)) =
      (pre, Except.error (Error.CannotReadLogs e)) := by
  simp [replay_logs, replayLoop_ok_append, replayLoop]

/-- Claim C2: on a log file whose contents are read successfully,
`replay_logs` emits every line of the file in file order — the lines being the
contents split on newline with the terminator stripped — calling the prefixed
sink's `output` exactly once per line, and returns unit; content that begins
with a newline yields the empty string as the very first emitted line. -/
theorem replay_success (content : Buf) (s : Buf) :
    replay_logs (Except.ok (linesOf content)) =
      (rustLines content, Except.ok ()) ∧
    (rustLines ('\n' :: s)).head? = some [] := by
  constructor
  · simp [replay_logs, linesOf, replayLoop_map_ok]
  · simp [rustLines, rustLinesAux, stripCrRev]

/-- Claim C1: `LogWriter::write` dispatches by which sinks are configured.
With both sinks, the prefixed (terminal) sink is written first; if that write
fails the failure is propagated immediately and the file sink is not written
(its state is left untouched); otherwise the buffer is written to the file
sink and the file sink's result is returned, the terminal sink's count being
discarded.  With only a file sink, its result is returned; with only a
terminal sink, its result is returned. -/
theorem write_dispatch {σf σt : Type} (fs : Sink σf) (ts : Sink σt)
    (w : LogWriter σf σt) (buf : Buf) :
    (∀ lf pw, w.log_file = some lf → w.prefixed_writer = some pw →
      (∀ pw' e, ts.write pw buf = (pw', Except.error e) →
        LogWriter.write fs ts w buf = (⟨some lf, some pw'⟩, Except.error e)) ∧
      (∀ pw' n, ts.write pw buf = (pw', Except.ok n) →
        LogWriter.write fs ts w buf =
          (⟨some (fs.write lf buf).1, some pw'⟩, (fs.write lf buf).2))) ∧
    (∀ lf, w.log_file = some lf → w.prefixed_writer = none →
      LogWriter.write fs ts w buf =
        (⟨some (fs.write lf buf).1, none⟩, (fs.write lf buf).2)) ∧
    (∀ pw, w.log_file = none → w.prefixed_writer = some pw →
      LogWriter.write fs ts w buf =
        (⟨none, some (ts.write pw buf).1⟩, (ts.write pw buf).2)) := by
  refine ⟨fun lf pw hf ht => ⟨fun pw' e hw => ?_, fun pw' n hw => ?_⟩,
    fun lf hf ht => ?_, fun pw hf ht => ?_⟩ <;>
    simp [LogWriter.write, hf, ht] <;> rw [hw]

/-- Witness for C1: all three configurations at concrete sinks and buffers,
with a failing and a succeeding terminal write on the dual-sink path. -/
theorem write_dispatch_witness :
    LogWriter.write failFileSink failTermSink
        (⟨some ⟨[], []⟩, some ⟨[]⟩⟩ : LogWriter BufFile TermBuf) ['a'] =
      (⟨some ⟨[], []⟩, some ⟨[]⟩⟩, Except.error ⟨7⟩) ∧
    LogWriter.write fileSink termSink
        (⟨some ⟨[], []⟩, some ⟨[]⟩⟩ : LogWriter BufFile TermBuf) ['a'] =
      (⟨some ⟨['a'], []⟩, some ⟨['a']⟩⟩, Except.ok 1) ∧
    LogWriter.write fileSink termSink
        (⟨some ⟨[], []⟩, none⟩ : LogWriter BufFile TermBuf) ['a'] =
      (⟨some ⟨['a'], []⟩, none⟩, Except.ok 1) ∧
    LogWriter.write fileSink termSink
        (⟨none, some ⟨[]⟩⟩ : LogWriter BufFile TermBuf) ['a'] =
      (⟨none, some ⟨['a']⟩⟩, Except.ok 1) :=
  ⟨((write_dispatch failFileSink failTermSink ⟨some ⟨[], []⟩, some ⟨[]⟩⟩
      ['a']).1 ⟨[], []⟩ ⟨[]⟩ rfl rfl).1 ⟨[]⟩ ⟨7⟩ rfl,
   ((write_dispatch fileSink termSink ⟨some ⟨[], []⟩, some ⟨[]⟩⟩
      ['a']).1 ⟨[], []⟩ ⟨[]⟩ rfl rfl).2 ⟨['a']⟩ 1 rfl,
   (write_dispatch fileSink termSink ⟨some ⟨[], []⟩, none⟩
      ['a']).2.1 ⟨[], []⟩ rfl rfl,
   (write_dispatch fileSink termSink ⟨none, some ⟨[]⟩⟩
      ['a']).2.2 ⟨[]⟩ rfl rfl⟩

/-- Claim C7: `LogWriter::flush` flushes the file sink first if present,
propagating its failure immediately and aborting before reaching the terminal
sink (whose state is left untouched); otherwise it then flushes the terminal
sink if present, propagating its result; with neither sink configured it
succeeds trivially. -/
theorem flush_dispatch {σf σt : Type} (fs : Sink σf) (ts : Sink σt)
    (w : LogWriter σf σt) :
    (∀ lf pw, w.log_file = some lf → w.prefixed_writer = some pw →
      (∀ lf' e, fs.flush lf = (lf', Except.error e) →
        LogWriter.flush fs ts w = (⟨some lf', some pw⟩, Except.error e)) ∧
      (∀ lf', fs.flush lf = (lf', Except.ok ()) →
        LogWriter.flush fs ts w =
          (⟨some lf', some (ts.flush pw).1⟩, (ts.flush pw).2))) ∧
    (∀ lf, w.log_file = some lf → w.prefixed_writer = none →
      LogWriter.flush fs ts w =
        (⟨some (fs.flush lf).1, none⟩, (fs.flush lf).2)) ∧
    (∀ pw, w.log_file = none → w.prefixed_writer = some pw →
      LogWriter.flush fs ts w =
        (⟨none, some (ts.flush pw).1⟩, (ts.flush pw).2)) ∧
    (w.log_file = none → w.prefixed_writer = none →
      LogWriter.flush fs ts w = (w, Except.ok ())) := by
  refine ⟨fun lf pw hf ht => ⟨fun lf' e hw => ?_, fun lf' hw => ?_⟩,
    fun lf hf ht => ?_, fun pw hf ht => ?_, fun hf ht => ?_⟩ <;>
    simp [LogWriter.flush, hf, ht] <;> rw [hw]

/-- Witness for C7: all four configurations at concrete sinks, with a failing
and a succeeding file flush on the dual-sink path. -/
theorem flush_dispatch_witness :
    LogWriter.flush failFileSink termSink
        (⟨some ⟨['a'], []⟩, some ⟨[]⟩⟩ : LogWriter BufFile TermBuf) =
      (⟨some ⟨['a'], []⟩, some ⟨[]⟩⟩, Except.error ⟨3⟩) ∧
    LogWriter.flush fileSink termSink
        (⟨some ⟨['a'], []⟩, some ⟨[]⟩⟩ : LogWriter BufFile TermBuf) =
      (⟨some ⟨[], ['a']⟩, some ⟨[]⟩⟩, Except.ok ()) ∧
    LogWriter.flush fileSink termSink
        (⟨some ⟨['a'], []⟩, none⟩ : LogWriter BufFile TermBuf) =
      (⟨some ⟨[], ['a']⟩, none⟩, Except.ok ()) ∧
    LogWriter.flush fileSink termSink
        (⟨none, some ⟨[]⟩⟩ : LogWriter BufFile TermBuf) =
      (⟨none, some ⟨[]⟩⟩, Except.ok ()) ∧
    LogWriter.flush fileSink termSink
        (⟨none, none⟩ : LogWriter BufFile TermBuf) =
      (⟨none, none⟩, Except.ok ()) :=
  ⟨((flush_dispatch failFileSink termSink ⟨some ⟨['a'], []⟩, some ⟨[]⟩⟩).1
      ⟨['a'], []⟩ ⟨[]⟩ rfl rfl).1 ⟨['a'], []⟩ ⟨3⟩ rfl,
   ((flush_dispatch fileSink termSink ⟨some ⟨['a'], []⟩, some ⟨[]⟩⟩).1
      ⟨['a'], []⟩ ⟨[]⟩ rfl rfl).2 ⟨[], ['a']⟩ rfl,
   (flush_dispatch fileSink termSink ⟨some ⟨['a'], []⟩, none⟩).2.1
      ⟨['a'], []⟩ rfl rfl,
   (flush_dispatch fileSink termSink ⟨none, some ⟨[]⟩⟩).2.2.1 ⟨[]⟩ rfl rfl,
   (flush_dispatch fileSink termSink ⟨none, none⟩).2.2.2 rfl rfl⟩

/-- Claim C4: `with_log_file` fails with `CannotWriteLogs` carrying the
originating I/O cause when ensuring the parent directory or creating the file
fails, leaving the whole writer — in particular its file-sink slot —
unchanged; on success the created file is stored as the file sink, replacing
any prior one. -/
theorem with_log_file_spec {σf σt : Type} (ensure_dir : Except IoError Unit)
    (create : Except IoError σf) (w : LogWriter σf σt) :
    (∀ e, ensure_dir = Except.error e →
      LogWriter.with_log_file ensure_dir create w =
        (w, Except.error (Error.CannotWriteLogs e))) ∧
    (∀ e, ensure_dir = Except.ok () → create = Except.error e →
      LogWriter.with_log_file ensure_dir create w =
        (w, Except.error (Error.CannotWriteLogs e))) ∧
    (∀ f, ensure_dir = Except.ok () → create = Except.ok f →
      LogWriter.with_log_file ensure_dir create w =
        (⟨some f, w.prefixed_writer⟩, Except.ok ())) := by
  refine ⟨fun e he => ?_, fun e hd hc => ?_, fun f hd hc => ?_⟩ <;>
    simp [LogWriter.with_log_file, *]

/-- Witness for C4: both failure stages leave a prior file sink in place, and
success replaces it. -/
theorem with_log_file_spec_witness :
    LogWriter.with_log_file (Except.error ⟨5⟩) (Except.ok (⟨[], []⟩ : BufFile))
        (⟨some ⟨['x'], []⟩, none⟩ : LogWriter BufFile TermBuf) =
      (⟨some ⟨['x'], []⟩, none⟩, Except.error (Error.CannotWriteLogs ⟨5⟩)) ∧
    LogWriter.with_log_file (Except.ok ()) (Except.error ⟨6⟩)
        (⟨some ⟨['x'], []⟩, none⟩ : LogWriter BufFile TermBuf) =
      (⟨some ⟨['x'], []⟩, none⟩, Except.error (Error.CannotWriteLogs ⟨6⟩)) ∧
    LogWriter.with_log_file (Except.ok ()) (Except.ok (⟨[], []⟩ : BufFile))
        (⟨some ⟨['x'], []⟩, none⟩ : LogWriter BufFile TermBuf) =
      (⟨some ⟨[], []⟩, none⟩, Except.ok ()) :=
  ⟨(with_log_file_spec (Except.error ⟨5⟩) (Except.ok (⟨[], []⟩ : BufFile))
      (⟨some ⟨['x'], []⟩, none⟩ : LogWriter BufFile TermBuf)).1 ⟨5⟩ rfl,
   (with_log_file_spec (Except.ok ()) (Except.error ⟨6⟩)
      (⟨some ⟨['x'], []⟩, none⟩ : LogWriter BufFile TermBuf)).2.1 ⟨6⟩ rfl rfl,
   (with_log_file_spec (Except.ok ()) (Except.ok (⟨[], []⟩ : BufFile))
      (⟨some ⟨['x'], []⟩, none⟩ : LogWriter BufFile TermBuf)).2.2 ⟨[], []⟩ rfl rfl⟩

/-- Claim C9: flush is idempotent.  For every writer state over the concrete
sinks (the buffered file sink and the terminal sink), a first flush succeeds,
and a second flush with no intervening writes leaves both sink states exactly
as the first flush left them and also succeeds. -/
theorem flush_idempotent (w : LogWriter BufFile TermBuf) :
    (LogWriter.flush fileSink termSink w).2 = Except.ok () ∧
    LogWriter.flush fileSink termSink
        (LogWriter.flush fileSink termSink w).1 =
      ((LogWriter.flush fileSink termSink w).1, Except.ok ()) := by
  obtain ⟨lf, pw⟩ := w
  rcases lf with _ | ⟨b, wr⟩ <;> rcases pw with _ | ⟨o⟩ <;>
    simp [LogWriter.flush, fileSink, termSink]

/-- Claim C10 counterexample: the file content "a\r\r\n" consists of one line
terminated by a carriage return followed by a newline, yet replaying it emits
the line "a\r", which ends in a carriage return — only the single carriage
return belonging to the CRLF terminator is stripped, so a line passed to the
prefixed sink's output can end in a carriage return. -/
theorem crlf_counterexample :
    replay_logs (Except.ok (linesOf ['a', '\r', '\r', '\n'])) =
      ([['a', '\r']], Except.ok ()) ∧
    (['a', '\r'] : Buf).getLast? = some '\r' := by
  constructor <;> rfl

/-- Claim C10 (amended): for a line terminated by a carriage return followed
by a newline, `replay_logs` strips exactly that carriage return together with
the newline before emitting the line (Rust's `BufRead::lines` semantics); an
emitted line can nevertheless end in a carriage return when the content held a
further carriage return before the CRLF terminator, or when a final
unterminated line ends in one. -/
theorem crlf_stripped (l : Buf) (rest : Buf) (h : '\n' ∉ l) :
    rustLines (l ++ '\r' :: '\n' :: rest) = l :: rustLines rest ∧
    (replay_logs (Except.ok (linesOf (l ++ '\r' :: '\n' :: rest)))).1.head? =
      some l := by
  have hl : '\n' ∉ l ++ ['\r'] := by
    intro hm
    rcases List.mem_append.mp hm with hm | hm
    · exact h hm
    · simp at hm
  have h1 : rustLines (l ++ '\r' :: '\n' :: rest) = l :: rustLines rest := by
    have := rustLinesAux_line (l ++ ['\r']) hl [] rest
    simpa [rustLines, stripCrRev] using this
  refine ⟨h1, ?_⟩
  simp [replay_logs, linesOf, h1, replayLoop, replayLoop_map_ok]

/-- Witness for the amended C10 at the concrete content "a\r\n". -/
theorem crlf_stripped_witness :
    rustLines (['a'] ++ '\r' :: '\n' :: []) = ['a'] :: rustLines [] ∧
    (replay_logs (Except.ok (linesOf (['a'] ++ '\r' :: '\n' :: [])))).1.head? =
      some ['a'] :=
  crlf_stripped ['a'] [] (by decide)

theorem writeAll_file_only (bufs : List Buf) (b w0 : Buf) :
    writeAll fileSink termSink (⟨some ⟨b, w0⟩, none⟩ : LogWriter BufFile TermBuf)
        bufs =
      (⟨some ⟨b ++ bufs.flatten, w0⟩, none⟩, Except.ok ()) := by
  induction bufs generalizing b with
  | nil => simp [writeAll]
  | cons x rest ih =>
    have hw : LogWriter.write fileSink termSink
        (⟨some ⟨b, w0⟩, none⟩ : LogWriter BufFile TermBuf) x =
        (⟨some ⟨b ++ x, w0⟩, none⟩, Except.ok x.length) := rfl
    simp [writeAll, hw, ih, List.append_assoc]

theorem rustLines_terminated (L : List Buf)
    (h : ∀ l ∈ L, '\n' ∉ l ∧ l.getLast? ≠ some '\r') :
    rustLines (terminatedContent L) = L := by
  induction L with
  | nil => rfl
  | cons x rest ih =>
    obtain ⟨hx, hrest⟩ := List.forall_mem_cons.mp h
    have hnl : '\n' ∉ x := hx.1
    have hcr : x.reverse.head? ≠ some '\r' := by
      rw [List.head?_reverse]; exact hx.2
    have hstep : terminatedContent (x :: rest) =
        x ++ '\n' :: terminatedContent rest := by
      simp [terminatedContent, List.append_assoc]
    rw [hstep]
    have h2 := rustLinesAux_line x hnl [] (terminatedContent rest)
    rw [List.append_nil] at h2
    rw [rustLines, h2, stripCrRev_not_cr x.reverse hcr, List.reverse_reverse]
    exact congrArg (fun t => x :: t) (ih hrest)

/-- Claim C8 counterexample: for the single line "a\r", writing it
newline-terminated through a `LogWriter` configured with only a file sink and
flushing produces the file content "a\r\n", whose replay emits the line "a" —
`BufRead::lines` strips the carriage return together with the newline — so the
original line does not appear in the sink output and the round-trip fails as
stated. -/
theorem roundtrip_counterexample :
    writeAll fileSink termSink
        (⟨some ⟨[], []⟩, none⟩ : LogWriter BufFile TermBuf)
        (([['a', '\r']] : List Buf).map (fun l => l ++ ['\n'])) =
      (⟨some ⟨['a', '\r', '\n'], []⟩, none⟩, Except.ok ()) ∧
    LogWriter.flush fileSink termSink
        (⟨some ⟨['a', '\r', '\n'], []⟩, none⟩ : LogWriter BufFile TermBuf) =
      (⟨some ⟨[], ['a', '\r', '\n']⟩, none⟩, Except.ok ()) ∧
    replay_logs (Except.ok (linesOf ['a', '\r', '\n'])) =
      ([['a']], Except.ok ()) ∧
    ([['a']] : List Buf) ≠ [['a', '\r']] :=
  ⟨rfl, rfl, rfl, by decide⟩

/-- Claim C8 (amended): round-trip for lines free of carriage-return endings.
Writing the newline-terminated lines of `L` — none containing a newline and
none ending in a carriage return — through a `LogWriter` configured with only
a file sink succeeds; flushing commits exactly their concatenation as the
file's contents; and replaying that file emits exactly the lines of `L`, in
order, so that the prefixed rendering of the replay output is each line of `L`
with the prefix prepended and a newline appended — no lines added or dropped.
(A line ending in a carriage return loses that carriage return on replay, as
the counterexample shows, so such lines are excluded.) -/
theorem replay_roundtrip (L : List Buf) (pfx : Buf)
    (h : ∀ l ∈ L, '\n' ∉ l ∧ l.getLast? ≠ some '\r') :
    writeAll fileSink termSink
        (⟨some ⟨[], []⟩, none⟩ : LogWriter BufFile TermBuf)
        (L.map (fun l => l ++ ['\n'])) =
      (⟨some ⟨terminatedContent L, []⟩, none⟩, Except.ok ()) ∧
    LogWriter.flush fileSink termSink
        (⟨some ⟨terminatedContent L, []⟩, none⟩ : LogWriter BufFile TermBuf) =
      (⟨some ⟨[], terminatedContent L⟩, none⟩, Except.ok ()) ∧
    replay_logs (Except.ok (linesOf (terminatedContent L))) =
      (L, Except.ok ()) ∧
    prefixedRender pfx
        (replay_logs (Except.ok (linesOf (terminatedContent L)))).1 =
      L.map (fun l => pfx ++ l ++ ['\n']) := by
  have hr : replay_logs (Except.ok (linesOf (terminatedContent L))) =
      (L, Except.ok ()) := by
    simp [replay_logs, linesOf, replayLoop_map_ok, rustLines_terminated L h]
  refine ⟨?_, ?_, hr, ?_⟩
  · simpa [terminatedContent] using
      writeAll_file_only (L.map (fun l => l ++ ['\n'])) [] []
  · simp [LogWriter.flush, fileSink]
  · rw [hr]
    simp [prefixedRender, List.append_assoc]

/-- Witness for C8 at the concrete lines "one", "two" and the prefix ">". -/
theorem replay_roundtrip_witness :
    writeAll fileSink termSink
        (⟨some ⟨[], []⟩, none⟩ : LogWriter BufFile TermBuf)
        (([['o', 'n', 'e'], ['t', 'w', 'o']] : List Buf).map
          (fun l => l ++ ['\n'])) =
      (⟨some ⟨terminatedContent [['o', 'n', 'e'], ['t', 'w', 'o']], []⟩, none⟩,
        Except.ok ()) ∧
    LogWriter.flush fileSink termSink
        (⟨some ⟨terminatedContent [['o', 'n', 'e'], ['t', 'w', 'o']], []⟩,
          none⟩ : LogWriter BufFile TermBuf) =
      (⟨some ⟨[], terminatedContent [['o', 'n', 'e'], ['t', 'w', 'o']]⟩, none⟩,
        Except.ok ()) ∧
    replay_logs (Except.ok (linesOf
        (terminatedContent [['o', 'n', 'e'], ['t', 'w', 'o']]))) =
      ([['o', 'n', 'e'], ['t', 'w', 'o']], Except.ok ()) ∧
    prefixedRender ['>']
        (replay_logs (Except.ok (linesOf
          (terminatedContent [['o', 'n', 'e'], ['t', 'w', 'o']])))).1 =
      ([['o', 'n', 'e'], ['t', 'w', 'o']] : List Buf).map
        (fun l => ['>'] ++ l ++ ['\n']) :=
  replay_roundtrip [['o', 'n', 'e'], ['t', 'w', 'o']] ['>'] (by decide)

end TurboLogs
